import Mathlib

/-!
Verification of the CAMT.053 flattening core of the camt_parser repository.

The program (src/main.rs) walks a parsed XML tree and flattens bank
statement entries into flat records.  We embed the XML tree shallowly: an
element is a tag, its own text content and its ordered children.  The three
Rust functions process_camt53, ntryParser and txdtlsParser are translated
below; every Rust expect or unwrap abort becomes an explicit Except error,
following the error taxonomy of the specification.
-/

/-- An XML element: a tag, its own text content, and its ordered children. -/
inductive Elem : Type where
  | mk : String → String → List Elem → Elem

def Elem.tag : Elem → String
  | .mk t _ _ => t

def Elem.text : Elem → String
  | .mk _ s _ => s

def Elem.children : Elem → List Elem
  | .mk _ _ cs => cs

/-- Namespace-agnostic tag test, as minidom Element.is with NSChoice.Any. -/
def Elem.is (e : Elem) (t : String) : Bool := e.tag == t

/-- First child carrying the given tag, as minidom get_child. -/
def get_child (e : Elem) (t : String) : Option Elem :=
  e.children.find? (fun c => c.is t)

/-- Error taxonomy of the specification; each expect or unwrap abort in the
source is mapped to one of these, carrying the panic message. -/
inductive Err : Type where
  | structureError : String → Err
  | formatError : String → Err
  | missingFieldError : String → Err
  deriving DecidableEq, Repr

/-- Statement-level metadata, struct Stmt in the source. -/
structure Stmt where
  iban : String
  entries_count : Int
  deriving DecidableEq, Repr

/-- One flat output record, struct Ntry in the source. -/
structure Ntry where
  account : String
  date : String
  description : String
  debit : String
  credit : String
  ntry_type : String
  deriving DecidableEq, Repr

/-- Left fold over a list in the Except monad; models a Rust for loop whose
body may abort. -/
def foldE (f : σ → α → Except Err σ) : σ → List α → Except Err σ
  | st, [] => Except.ok st
  | st, a :: as =>
    match f st a with
    | Except.error e => Except.error e
    | Except.ok st2 => foldE f st2 as

/-- Effectful map in the Except monad, used to state characterization
lemmas about the entry explosion. -/
def mapE (f : α → Except Err β) : List α → Except Err (List β)
  | [] => Except.ok []
  | a :: as =>
    match f a with
    | Except.error e => Except.error e
    | Except.ok b =>
      match mapE f as with
      | Except.error e => Except.error e
      | Except.ok bs => Except.ok (b :: bs)

/-- Value of a list of decimal digits. -/
def digitsVal (cs : List Char) : Nat :=
  cs.foldl (fun a c => a * 10 + (c.toNat - '0'.toNat)) 0

/-- Model of Rust str::parse for i64: optional sign, nonempty digits,
value within the i64 range. -/
def parseI64 (s : String) : Option Int :=
  let cs := s.data
  let signDigits : Bool × List Char :=
    match cs with
    | '+' :: rest => (false, rest)
    | '-' :: rest => (true, rest)
    | rest => (false, rest)
  let neg := signDigits.1
  let ds := signDigits.2
  if ds.isEmpty then none
  else if ds.all (fun c => '0' ≤ c && c ≤ '9') then
    let v : Int := if neg then -(digitsVal ds : Int) else (digitsVal ds : Int)
    if -(2 ^ 63) ≤ v ∧ v < 2 ^ 63 then some v else none
  else none

/-- Lookup Id then IBAN beneath an element, shared shape of the three IBAN
lookups in the source. -/
def acct_iban (e : Elem) : Option Elem :=
  (get_child e "Id").bind (fun c => get_child c "IBAN")

/-- Creditor IBAN resolution inside a RltdPties element: a present CdtrAcct
must contain Id and IBAN (expect abort otherwise); an absent CdtrAcct yields
the sentinel string. From src/main.rs lines 253-262. -/
def cdtr_iban (child : Elem) : Except Err String :=
  match get_child child "CdtrAcct" with
  | some cdtracct =>
    match acct_iban cdtracct with
    | some ib => Except.ok ib.text
    | none => Except.error (Err.structureError "no cdtr IBAN in RltdPties")
  | none => Except.ok "UKNOWN IBAN"

/-- Debtor IBAN resolution inside a RltdPties element: a present DbtrAcct
without Id and IBAN falls back to the text of the not_found_element
(unwrap_or), an absent DbtrAcct yields the sentinel string. From
src/main.rs lines 267-277. -/
def dbtr_iban (child : Elem) : String :=
  match get_child child "DbtrAcct" with
  | some dbtracct =>
    match acct_iban dbtracct with
    | some ib => ib.text
    | none => "Not Found"
  | none => "UKNOWN IBAN"

/-- The RltdPties branch of txdtlsParser (src/main.rs lines 243-284):
start from the unknown sentinels, let a Cdtr child set partner name and
IBAN, then let a Dbtr child overwrite both, and build the description. -/
def rltdpties_descr (child : Elem) : Except Err String :=
  match
    (match get_child child "Cdtr" with
     | some cdtr =>
       match get_child cdtr "Nm" with
       | none => Except.error (Err.structureError "Cdtr without Nm")
       | some nmel =>
         match cdtr_iban child with
         | Except.error e => Except.error e
         | Except.ok ib => Except.ok (nmel.text, ib)
     | none => Except.ok ("unknown_partner", "unknown_iban")) with
  | Except.error e => Except.error e
  | Except.ok st =>
    match get_child child "Dbtr" with
    | some dbtr =>
      match get_child dbtr "Nm" with
      | none => Except.error (Err.structureError "Cdtr without Nm")
      | some nmel => Except.ok (nmel.text ++ " - " ++ dbtr_iban child)
    | none => Except.ok (st.1 ++ " - " ++ st.2)

/-- One step of the child scan of txdtlsParser (src/main.rs lines
231-285): record the text of an Amt child as the amount, of a CdtDbtInd
child as the operation, and rebuild the description on a RltdPties child. -/
def txdtls_step (st : Option String × Option String × Ntry) (child : Elem) :
    Except Err (Option String × Option String × Ntry) :=
  let operation := st.1
  let amount := st.2.1
  let result := st.2.2
  let amount := if child.is "Amt" then some child.text else amount
  let operation := if child.is "CdtDbtInd" then some child.text else operation
  if child.is "RltdPties" then
    match rltdpties_descr child with
    | Except.error e => Except.error e
    | Except.ok descr =>
      Except.ok (operation, amount, { result with description := descr })
  else
    Except.ok (operation, amount, result)

/-- txdtlsParser (src/main.rs lines 225-296): clone the template, scan the
TxDtls children once, require amount and operation to have been seen, and
place the amount on the side selected by the operation. -/
def txdtlsParser (entry : Ntry) (tx_dtls : Elem) : Except Err Ntry :=
  match foldE txdtls_step (none, none, entry) tx_dtls.children with
  | Except.error e => Except.error e
  | Except.ok st =>
    match st.2.1 with
    | none => Except.error (Err.missingFieldError "did not find amount")
    | some amount =>
      match st.1 with
      | none => Except.error (Err.missingFieldError "did not found operation type")
      | some operation =>
        if operation = "DBIT" then
          Except.ok { st.2.2 with debit := amount, credit := "0" }
        else
          Except.ok { st.2.2 with credit := amount, debit := "0" }

/-- The template-building prefix of ntryParser (src/main.rs lines
151-202): require Amt, BookgDt/Dt, AddtlNtryInf and CdtDbtInd, then place
the amount on the credit side exactly when the indicator text is CRDT. -/
def ntry_template (account : String) (child : Elem) : Except Err Ntry :=
  match get_child child "Amt" with
  | none => Except.error (Err.structureError "No Amts in Ntry")
  | some amt =>
    match (get_child child "BookgDt").bind (fun c => get_child c "Dt") with
    | none => Except.error (Err.structureError "no Dt in Bookgdt")
    | some dt =>
      match get_child child "AddtlNtryInf" with
      | none => Except.error (Err.structureError "cannot get AddtlNtryInf")
      | some descr =>
        match get_child child "CdtDbtInd" with
        | none => Except.error (Err.structureError "error in CdtDbtInd")
        | some ind =>
          let record : Ntry :=
            { account := account, date := dt.text, description := descr.text,
              debit := "0", credit := "0", ntry_type := ind.text }
          if ind.text = "CRDT" then Except.ok { record with credit := amt.text }
          else Except.ok { record with debit := amt.text }

/-- Inner loop body of the explosion in ntryParser: on a TxDtls child,
enrich a clone of the template and push it, marking that details exist. -/
def txdtls_push (record : Ntry) (st : List Ntry × Bool) (c : Elem) :
    Except Err (List Ntry × Bool) :=
  if c.is "TxDtls" then
    match txdtlsParser record c with
    | Except.error e => Except.error e
    | Except.ok tx => Except.ok (st.1 ++ [tx], true)
  else Except.ok st

/-- Outer loop body of the explosion in ntryParser: descend into each
NtryDtls wrapper. -/
def ntrydtls_step (record : Ntry) (st : List Ntry × Bool) (entry : Elem) :
    Except Err (List Ntry × Bool) :=
  if entry.is "NtryDtls" then foldE (txdtls_push record) st entry.children
  else Except.ok st

/-- ntryParser (src/main.rs lines 151-223): build the base template, then
push one enriched record per TxDtls found beneath the NtryDtls wrappers;
push the bare template exactly when none was found. -/
def ntryParser (account : String) (child : Elem) : Except Err (List Ntry) :=
  match ntry_template account child with
  | Except.error e => Except.error e
  | Except.ok record =>
    match foldE (ntrydtls_step record) ([], false) child.children with
    | Except.error e => Except.error e
    | Except.ok st =>
      if st.2 then Except.ok st.1 else Except.ok (st.1 ++ [record])

/-- First block of the statement child scan of process_camt53 (src/main.rs
lines 129-131): parse the text of an ElctrncSeqNb child as an integer. -/
def stmt_step_seqnb (child : Elem) (stmt_info : Stmt) : Except Err Stmt :=
  if child.is "ElctrncSeqNb" then
    match parseI64 child.text with
    | none => Except.error (Err.formatError "ElctrncSeqNb is not an integer")
    | some n => Except.ok { stmt_info with entries_count := n }
  else Except.ok stmt_info

/-- Second block of the statement child scan (src/main.rs lines 134-140):
overwrite the current IBAN from an Acct child, whose Id and IBAN are
required. -/
def stmt_step_acct (child : Elem) (stmt_info : Stmt) : Except Err Stmt :=
  if child.is "Acct" then
    match acct_iban child with
    | none => Except.error (Err.structureError "no IBAN")
    | some ib => Except.ok { stmt_info with iban := ib.text }
  else Except.ok stmt_info

/-- Third block of the statement child scan (src/main.rs lines 142-146):
dispatch an Ntry child to ntryParser with the current IBAN and append the
returned records. -/
def stmt_step_ntry (child : Elem) (st : Stmt × List Ntry) :
    Except Err (Stmt × List Ntry) :=
  if child.is "Ntry" then
    match ntryParser st.1.iban child with
    | Except.error e => Except.error e
    | Except.ok res => Except.ok (st.1, st.2 ++ res)
  else Except.ok st

/-- One step of the statement child scan of process_camt53 (src/main.rs
lines 127-147): the three blocks above run in sequence on each child. -/
def stmt_step (st : Stmt × List Ntry) (child : Elem) :
    Except Err (Stmt × List Ntry) :=
  match stmt_step_seqnb child st.1 with
  | Except.error e => Except.error e
  | Except.ok stmt_info =>
    match stmt_step_acct child stmt_info with
    | Except.error e => Except.error e
    | Except.ok stmt_info => stmt_step_ntry child (stmt_info, st.2)

/-- process_camt53 (src/main.rs lines 112-149): locate BkToCstmrStmt then
Stmt, and scan the statement children once with stmt_step, starting from
the placeholder IBAN. -/
def process_camt53 (root : Elem) : Except Err (List Ntry) :=
  match get_child root "BkToCstmrStmt" with
  | none => Except.error (Err.structureError "no BkToCstmrStmt in root")
  | some customer_statment =>
    match get_child customer_statment "Stmt" with
    | none => Except.error (Err.structureError "no Stmt in BkToCstmrStmt")
    | some stmt =>
      match foldE stmt_step ({ iban := "IBAN", entries_count := 0 }, []) stmt.children with
      | Except.error e => Except.error e
      | Except.ok st => Except.ok st.2

/-- Modelled from the spec: the repository keeps feature-complete draft
variants of the Detail Enricher that are not under src; section 4.3 of the
spec states that there a RmtInf child of TxDtls appends the text of its
required Ustrd child to the existing description with no separator, and a
RmtInf without a Ustrd child is a StructureError. -/
def rmtinf_append (descr : String) (child : Elem) : Except Err String :=
  match get_child child "Ustrd" with
  | none => Except.error (Err.structureError "RmtInf without Ustrd")
  | some u => Except.ok (descr ++ u.text)

/-- Modelled from the spec: scan step of the RmtInf-handling variant of the
Detail Enricher, identical to txdtls_step except that a RmtInf child
appends its Ustrd text to the description via rmtinf_append. -/
def txdtls_step_v2 (st : Option String × Option String × Ntry) (child : Elem) :
    Except Err (Option String × Option String × Ntry) :=
  let operation := st.1
  let amount := st.2.1
  let result := st.2.2
  let amount := if child.is "Amt" then some child.text else amount
  let operation := if child.is "CdtDbtInd" then some child.text else operation
  if child.is "RltdPties" then
    match rltdpties_descr child with
    | Except.error e => Except.error e
    | Except.ok descr =>
      Except.ok (operation, amount, { result with description := descr })
  else if child.is "RmtInf" then
    match rmtinf_append result.description child with
    | Except.error e => Except.error e
    | Except.ok descr =>
      Except.ok (operation, amount, { result with description := descr })
  else
    Except.ok (operation, amount, result)

/-- Accumulator step recording the last element carrying a given tag. -/
def lastUpd (t : String) (acc : Option Elem) (c : Elem) : Option Elem :=
  if c.is t then some c else acc

/-- Last element carrying the given tag in a list, if any. -/
def lastTagged (t : String) (cs : List Elem) : Option Elem :=
  cs.foldl (lastUpd t) none

/-- Text of the last element carrying the given tag, if any; this is the
value a single overwrite-on-sight scan leaves behind. -/
def lastText (t : String) (cs : List Elem) : Option String :=
  (lastTagged t cs).map Elem.text

/-- The TxDtls elements beneath the NtryDtls wrappers of a child list, in
document order, flattened. -/
def dtlsList : List Elem → List Elem
  | [] => []
  | c :: cs =>
    (if c.is "NtryDtls" then c.children.filter (fun x => x.is "TxDtls") else [])
      ++ dtlsList cs

/-- The TxDtls elements beneath an entry, in document order, flattened. -/
def entry_dtls (e : Elem) : List Elem := dtlsList e.children

/-- All amount texts an entry can resolve: the entry-level Amt text and the
scan-resolved Amt text of each TxDtls beneath it. -/
def ntry_amounts (e : Elem) : List String :=
  (match get_child e "Amt" with
   | some a => [a.text]
   | none => []) ++
  (entry_dtls e).filterMap (fun d => lastText "Amt" d.children)


/-- Leaf element: a tag and text, no children. -/
def leaf (t s : String) : Elem := Elem.mk t s []

/-- Interior element: a tag and children, no own text. -/
def node (t : String) (cs : List Elem) : Elem := Elem.mk t "" cs

def c1ce_acct : Elem := node "Acct" [node "Id" [leaf "IBAN" ""]]

def c1ce_ntry : Elem :=
  node "Ntry" [leaf "Amt" "0", node "BookgDt" [leaf "Dt" "2024-01-02"],
    leaf "AddtlNtryInf" "desc", leaf "CdtDbtInd" "CRDT"]

def c1ce_doc : Elem :=
  node "Root" [node "BkToCstmrStmt" [node "Stmt" [c1ce_acct, c1ce_ntry]]]

def tpl0 : Ntry :=
  { account := "ACC", date := "2024-01-02", description := "desc",
    debit := "0", credit := "100.00", ntry_type := "CRDT" }

def c1w_e : Elem :=
  node "Ntry" [leaf "Amt" "100.00", node "BookgDt" [leaf "Dt" "2024-01-02"],
    leaf "AddtlNtryInf" "desc", leaf "CdtDbtInd" "CRDT",
    node "NtryDtls" [node "TxDtls" [leaf "Amt" "42.50", leaf "CdtDbtInd" "DBIT"]]]

def c1w_r : Ntry :=
  { account := "ACC", date := "2024-01-02", description := "desc",
    debit := "42.50", credit := "0", ntry_type := "CRDT" }

def c1w_l : List Ntry := [c1w_r]

def c2w_e : Elem :=
  node "Ntry" [leaf "Amt" "50.00", node "BookgDt" [leaf "Dt" "2024-01-03"],
    leaf "AddtlNtryInf" "multi", leaf "CdtDbtInd" "DBIT",
    node "NtryDtls" [node "TxDtls" [leaf "Amt" "20.00", leaf "CdtDbtInd" "CRDT"]],
    node "NtryDtls" [node "TxDtls" [leaf "Amt" "30.00", leaf "CdtDbtInd" "DBIT"]]]

def c2w_l : List Ntry :=
  [{ account := "ACC", date := "2024-01-03", description := "multi",
     debit := "0", credit := "20.00", ntry_type := "DBIT" },
   { account := "ACC", date := "2024-01-03", description := "multi",
     debit := "30.00", credit := "0", ntry_type := "DBIT" }]

def c3ce_ntry : Elem :=
  node "Ntry" [leaf "Amt" "100.00", node "BookgDt" [leaf "Dt" "2024-01-02"],
    leaf "AddtlNtryInf" "desc", leaf "CdtDbtInd" "CRDT",
    node "NtryDtls" [node "TxDtls" [leaf "Amt" "100.00", leaf "CdtDbtInd" "CRDT"]]]

def c3ce_record : Ntry :=
  { account := "AC", date := "2024-01-02", description := "desc",
    debit := "0", credit := "100.00", ntry_type := "CRDT" }

def c4w_d : Elem := node "TxDtls" [leaf "Amt" "42.50", leaf "CdtDbtInd" "DBIT"]

def c4w_r : Ntry :=
  { account := "ACC", date := "2024-01-02", description := "desc",
    debit := "42.50", credit := "0", ntry_type := "CRDT" }

def c5w_e : Elem :=
  node "Ntry" [leaf "Amt" "7.00", node "BookgDt" [leaf "Dt" "2024-01-03"],
    leaf "AddtlNtryInf" "y", leaf "CdtDbtInd" "CRED"]

def c5w_r : Ntry :=
  { account := "AC2", date := "2024-01-03", description := "y",
    debit := "7.00", credit := "0", ntry_type := "CRED" }

def c6w_acct : Elem := node "Acct" [node "Id" [leaf "IBAN" "CH9300762011623852957"]]

def c6w_ntry : Elem :=
  node "Ntry" [leaf "Amt" "10.00", node "BookgDt" [leaf "Dt" "2024-01-04"],
    leaf "AddtlNtryInf" "z", leaf "CdtDbtInd" "CRDT"]

def c6w_stmt : Elem := node "Stmt" [c6w_acct, c6w_ntry]

def c6w_bk : Elem := node "BkToCstmrStmt" [c6w_stmt]

def c6w_root : Elem := node "Root" [c6w_bk]

def c6w_info : Stmt := { iban := "CH9300762011623852957", entries_count := 0 }

def c6w_out : List Ntry :=
  [{ account := "CH9300762011623852957", date := "2024-01-04", description := "z",
     debit := "0", credit := "10.00", ntry_type := "CRDT" }]

def c7w_rp : Elem :=
  node "RltdPties" [node "Cdtr" [leaf "Nm" "Acme"],
    node "CdtrAcct" [node "Id" [leaf "IBAN" "FR001"]],
    node "Dbtr" [leaf "Nm" "Jane Doe"],
    node "DbtrAcct" [node "Id" [leaf "IBAN" "DE0001"]]]

def c7w_d : Elem :=
  node "TxDtls" [leaf "Amt" "5.00", leaf "CdtDbtInd" "DBIT", c7w_rp]

def c7w_r : Ntry :=
  { account := "ACC", date := "2024-01-02", description := "Jane Doe - DE0001",
    debit := "5.00", credit := "0", ntry_type := "CRDT" }

def c8w_rmt : Elem := node "RmtInf" [leaf "Ustrd" "invoice 17"]

def c9ce_rp : Elem := node "RltdPties" [node "Cdtr" [leaf "Nm" "Alice"]]

def c9w_rp2 : Elem := node "RltdPties" [node "Dbtr" [leaf "Nm" "Bob"]]

def c10w_rp1 : Elem :=
  node "RltdPties" [node "Dbtr" [leaf "Nm" "Jane"], node "DbtrAcct" [node "Id" []]]

def c10w_rp2 : Elem :=
  node "RltdPties" [node "Cdtr" [leaf "Nm" "John"], node "CdtrAcct" [node "Id" []]]

theorem foldE_append (f : σ → α → Except Err σ) (xs ys : List α) (st : σ) :
    foldE f st (xs ++ ys) =
      match foldE f st xs with
      | Except.error e => Except.error e
      | Except.ok st2 => foldE f st2 ys := by
  induction xs generalizing st with
  | nil => simp [foldE]
  | cons a as ih =>
    simp only [List.cons_append, foldE]
    cases f st a with
    | error e => rfl
    | ok st2 => exact ih st2

theorem mapE_length (f : α → Except Err β) (l : List α) (bs : List β)
    (h : mapE f l = Except.ok bs) : bs.length = l.length := by
  induction l generalizing bs with
  | nil =>
    simp only [mapE, Except.ok.injEq] at h
    subst h; rfl
  | cons a as ih =>
    simp only [mapE] at h
    cases hf : f a with
    | error e => simp [hf] at h
    | ok b =>
      simp only [hf] at h
      cases hm : mapE f as with
      | error e => simp [hm] at h
      | ok bs2 =>
        simp only [hm, Except.ok.injEq] at h
        subst h
        simp [ih bs2 hm]

theorem mapE_mem (f : α → Except Err β) (l : List α) (bs : List β)
    (h : mapE f l = Except.ok bs) (b : β) (hb : b ∈ bs) :
    ∃ a ∈ l, f a = Except.ok b := by
  induction l generalizing bs with
  | nil =>
    simp only [mapE, Except.ok.injEq] at h
    subst h; simp at hb
  | cons a as ih =>
    simp only [mapE] at h
    cases hf : f a with
    | error e => simp [hf] at h
    | ok b2 =>
      simp only [hf] at h
      cases hm : mapE f as with
      | error e => simp [hm] at h
      | ok bs2 =>
        simp only [hm, Except.ok.injEq] at h
        subst h
        rcases List.mem_cons.mp hb with hb2 | hb2
        · exact ⟨a, List.mem_cons_self a as, by rw [hf, hb2]⟩
        · obtain ⟨a2, ha2, hfa2⟩ := ih bs2 hm hb2
          exact ⟨a2, List.mem_cons_of_mem a ha2, hfa2⟩

theorem mapE_get (f : α → Except Err β) (l : List α) (bs : List β)
    (h : mapE f l = Except.ok bs) (i : Nat) (hi : i < l.length)
    (hbi : i < bs.length) :
    f (l.get ⟨i, hi⟩) = Except.ok (bs.get ⟨i, hbi⟩) := by
  induction l generalizing bs i with
  | nil => simp at hi
  | cons a as ih =>
    simp only [mapE] at h
    cases hf : f a with
    | error e => simp [hf] at h
    | ok b =>
      simp only [hf] at h
      cases hm : mapE f as with
      | error e => simp [hm] at h
      | ok bs2 =>
        simp only [hm, Except.ok.injEq] at h
        subst h
        cases i with
        | zero => simpa using hf
        | succ j =>
          exact ih bs2 hm j (Nat.lt_of_succ_lt_succ hi)
            (Nat.lt_of_succ_lt_succ hbi)

theorem lastTagged_foldl (t : String) (cs : List Elem) (init : Option Elem) :
    List.foldl (lastUpd t) init cs =
      match lastTagged t cs with
      | some a => some a
      | none => init := by
  induction cs generalizing init with
  | nil => rfl
  | cons c cs ih =>
    rw [List.foldl_cons]
    have hlast : lastTagged t (c :: cs) =
        List.foldl (lastUpd t) (lastUpd t none c) cs := rfl
    rw [hlast, ih (lastUpd t none c), ih (lastUpd t init c)]
    cases lastTagged t cs with
    | some a => rfl
    | none =>
      unfold lastUpd
      by_cases hc : c.is t <;> simp [hc]

theorem lastTagged_cons (t : String) (c : Elem) (cs : List Elem) :
    lastTagged t (c :: cs) =
      match lastTagged t cs with
      | some a => some a
      | none => if c.is t then some c else none := by
  have hlast : lastTagged t (c :: cs) =
      List.foldl (lastUpd t) (lastUpd t none c) cs := rfl
  rw [hlast, lastTagged_foldl]
  rfl

theorem txdtls_fold_char (cs : List Elem) (o m : Option String) (n : Ntry)
    (res : Option String × Option String × Ntry)
    (h : foldE txdtls_step (o, m, n) cs = Except.ok res) :
    res.1 = (match lastTagged "CdtDbtInd" cs with
             | some c => some c.text
             | none => o) ∧
    res.2.1 = (match lastTagged "Amt" cs with
               | some c => some c.text
               | none => m) ∧
    res.2.2.account = n.account ∧ res.2.2.date = n.date ∧
    res.2.2.debit = n.debit ∧ res.2.2.credit = n.credit ∧
    res.2.2.ntry_type = n.ntry_type ∧
    (match lastTagged "RltdPties" cs with
     | some c => rltdpties_descr c = Except.ok res.2.2.description
     | none => res.2.2.description = n.description) := by
  induction cs generalizing o m n with
  | nil =>
    simp only [foldE, Except.ok.injEq] at h
    subst h
    exact ⟨rfl, rfl, rfl, rfl, rfl, rfl, rfl, rfl⟩
  | cons c cs ih =>
    simp only [foldE] at h
    cases hstep : txdtls_step (o, m, n) c with
    | error e => simp [hstep] at h
    | ok st1 =>
      simp only [hstep] at h
      obtain ⟨o1, m1, n1⟩ := st1
      have IH := ih o1 m1 n1 h
      simp only [txdtls_step] at hstep
      rw [lastTagged_cons, lastTagged_cons, lastTagged_cons]
      by_cases hR : c.is "RltdPties" = true
      · simp only [hR, if_true] at hstep
        cases hrd : rltdpties_descr c with
        | error e => simp [hrd] at hstep
        | ok s =>
          simp only [hrd, Except.ok.injEq, Prod.mk.injEq] at hstep
          obtain ⟨ho1, hm1, hn1⟩ := hstep
          refine ⟨?_, ?_, ?_, ?_, ?_, ?_, ?_, ?_⟩
          · rw [IH.1, ← ho1]
            cases lastTagged "CdtDbtInd" cs with
            | some a => rfl
            | none => by_cases hc : c.is "CdtDbtInd" = true <;> simp [hc]
          · rw [IH.2.1, ← hm1]
            cases lastTagged "Amt" cs with
            | some a => rfl
            | none => by_cases hc : c.is "Amt" = true <;> simp [hc]
          · rw [IH.2.2.1, ← hn1]
          · rw [IH.2.2.2.1, ← hn1]
          · rw [IH.2.2.2.2.1, ← hn1]
          · rw [IH.2.2.2.2.2.1, ← hn1]
          · rw [IH.2.2.2.2.2.2.1, ← hn1]
          · have hd := IH.2.2.2.2.2.2.2
            cases hL : lastTagged "RltdPties" cs with
            | some c2 =>
              rw [hL] at hd
              exact hd
            | none =>
              rw [hL] at hd
              rw [if_pos hR]
              show rltdpties_descr c = Except.ok res.2.2.description
              have hds : res.2.2.description = s := by rw [hd, ← hn1]
              rw [hds]
              exact hrd
      · rw [if_neg hR] at hstep
        simp only [Except.ok.injEq, Prod.mk.injEq] at hstep
        obtain ⟨ho1, hm1, hn1⟩ := hstep
        subst ho1
        subst hm1
        subst hn1
        refine ⟨?_, ?_, IH.2.2.1, IH.2.2.2.1, IH.2.2.2.2.1, IH.2.2.2.2.2.1,
          IH.2.2.2.2.2.2.1, ?_⟩
        · rw [IH.1]
          cases lastTagged "CdtDbtInd" cs with
          | some a => rfl
          | none => by_cases hc : c.is "CdtDbtInd" = true <;> simp [hc]
        · rw [IH.2.1]
          cases lastTagged "Amt" cs with
          | some a => rfl
          | none => by_cases hc : c.is "Amt" = true <;> simp [hc]
        · have hd := IH.2.2.2.2.2.2.2
          cases hL : lastTagged "RltdPties" cs with
          | some c2 =>
            rw [hL] at hd
            exact hd
          | none =>
            rw [hL] at hd
            rw [if_neg hR]
            exact hd

theorem txdtlsParser_char (t : Ntry) (d : Elem) (r : Ntry)
    (h : txdtlsParser t d = Except.ok r) :
    ∃ op amt,
      lastText "CdtDbtInd" d.children = some op ∧
      lastText "Amt" d.children = some amt ∧
      r.account = t.account ∧ r.date = t.date ∧ r.ntry_type = t.ntry_type ∧
      (match lastTagged "RltdPties" d.children with
       | some c => rltdpties_descr c = Except.ok r.description
       | none => r.description = t.description) ∧
      (if op = "DBIT" then r.debit = amt ∧ r.credit = "0"
       else r.credit = amt ∧ r.debit = "0") := by
  unfold txdtlsParser at h
  cases hf : foldE txdtls_step (none, none, t) d.children with
  | error e => simp [hf] at h
  | ok st =>
    simp only [hf] at h
    obtain ⟨o1, m1, n1⟩ := st
    have HC := txdtls_fold_char d.children none none t (o1, m1, n1) hf
    cases hm : m1 with
    | none => rw [hm] at h; simp at h
    | some amt =>
      rw [hm] at h
      cases ho : o1 with
      | none => rw [ho] at h; simp at h
      | some op =>
        rw [ho] at h
        refine ⟨op, amt, ?_, ?_, ?_, ?_, ?_, ?_, ?_⟩
        · have := HC.1
          rw [ho] at this
          unfold lastText
          cases hL : lastTagged "CdtDbtInd" d.children with
          | some c => rw [hL] at this; exact this.symm
          | none => rw [hL] at this; simp at this
        · have := HC.2.1
          rw [hm] at this
          unfold lastText
          cases hL : lastTagged "Amt" d.children with
          | some c => rw [hL] at this; exact this.symm
          | none => rw [hL] at this; simp at this
        · by_cases hop : op = "DBIT" <;>
            simp only [hop, if_true, if_false, Except.ok.injEq] at h <;>
            rw [← h] <;> exact HC.2.2.1
        · by_cases hop : op = "DBIT" <;>
            simp only [hop, if_true, if_false, Except.ok.injEq] at h <;>
            rw [← h] <;> exact HC.2.2.2.1
        · by_cases hop : op = "DBIT" <;>
            simp only [hop, if_true, if_false, Except.ok.injEq] at h <;>
            rw [← h] <;> exact HC.2.2.2.2.2.2.1
        · have hd := HC.2.2.2.2.2.2.2
          cases hL : lastTagged "RltdPties" d.children with
          | some c =>
            rw [hL] at hd
            by_cases hop : op = "DBIT" <;>
              simp only [hop, if_true, if_false, Except.ok.injEq] at h <;>
              rw [← h] <;> exact hd
          | none =>
            rw [hL] at hd
            by_cases hop : op = "DBIT" <;>
              simp only [hop, if_true, if_false, Except.ok.injEq] at h <;>
              rw [← h] <;> exact hd
        · by_cases hop : op = "DBIT" <;>
            simp only [hop, if_true, if_false, Except.ok.injEq] at h
          · rw [if_pos hop, ← h]
            exact ⟨rfl, rfl⟩
          · rw [if_neg hop, ← h]
            exact ⟨rfl, rfl⟩

theorem ntry_template_char (account : String) (e : Elem) (r : Ntry)
    (h : ntry_template account e = Except.ok r) :
    ∃ amt dt descr ind,
      get_child e "Amt" = some amt ∧
      (get_child e "BookgDt").bind (fun c => get_child c "Dt") = some dt ∧
      get_child e "AddtlNtryInf" = some descr ∧
      get_child e "CdtDbtInd" = some ind ∧
      r.account = account ∧ r.date = dt.text ∧ r.description = descr.text ∧
      r.ntry_type = ind.text ∧
      (ind.text = "CRDT" → r.credit = amt.text ∧ r.debit = "0") ∧
      (ind.text ≠ "CRDT" → r.debit = amt.text ∧ r.credit = "0") := by
  unfold ntry_template at h
  cases ha : get_child e "Amt" with
  | none => rw [ha] at h; simp at h
  | some amt =>
    rw [ha] at h
    cases hb : (get_child e "BookgDt").bind (fun c => get_child c "Dt") with
    | none => rw [hb] at h; simp at h
    | some dt =>
      rw [hb] at h
      cases hc : get_child e "AddtlNtryInf" with
      | none => rw [hc] at h; simp at h
      | some descr =>
        rw [hc] at h
        cases hd : get_child e "CdtDbtInd" with
        | none => rw [hd] at h; simp at h
        | some ind =>
          rw [hd] at h
          dsimp only at h
          refine ⟨amt, dt, descr, ind, rfl, rfl, rfl, rfl, ?_⟩
          by_cases hcr : ind.text = "CRDT"
          · rw [if_pos hcr] at h
            simp only [Except.ok.injEq] at h
            subst h
            exact ⟨rfl, rfl, rfl, rfl, fun _ => ⟨rfl, rfl⟩,
              fun hn => absurd hcr hn⟩
          · rw [if_neg hcr] at h
            simp only [Except.ok.injEq] at h
            subst h
            exact ⟨rfl, rfl, rfl, rfl, fun hy => absurd hy hcr,
              fun _ => ⟨rfl, rfl⟩⟩

theorem txdtls_push_fold_char (record : Ntry) (ds : List Elem)
    (st res : List Ntry × Bool)
    (h : foldE (txdtls_push record) st ds = Except.ok res) :
    ∃ txs, mapE (txdtlsParser record) (ds.filter (fun c => c.is "TxDtls"))
        = Except.ok txs ∧
      res.1 = st.1 ++ txs ∧
      res.2 = (st.2 || !(ds.filter (fun c => c.is "TxDtls")).isEmpty) := by
  induction ds generalizing st with
  | nil =>
    simp only [foldE, Except.ok.injEq] at h
    subst h
    exact ⟨[], rfl, by simp, by simp⟩
  | cons c ds ih =>
    simp only [foldE] at h
    cases hstep : txdtls_push record st c with
    | error e => simp [hstep] at h
    | ok st1 =>
      simp only [hstep] at h
      unfold txdtls_push at hstep
      by_cases hT : c.is "TxDtls" = true
      · rw [if_pos hT] at hstep
        cases htx : txdtlsParser record c with
        | error e => simp [htx] at hstep
        | ok tx =>
          rw [htx] at hstep
          simp only [Except.ok.injEq] at hstep
          subst hstep
          obtain ⟨txs, hmap, h1, h2⟩ := ih _ h
          refine ⟨tx :: txs, ?_, ?_, ?_⟩
          · simp only [List.filter_cons, hT, if_true, mapE, htx, hmap]
          · rw [h1]
            simp
          · rw [h2]
            simp [List.filter_cons, hT]
      · rw [if_neg hT] at hstep
        simp only [Except.ok.injEq] at hstep
        subst hstep
        obtain ⟨txs, hmap, h1, h2⟩ := ih _ h
        refine ⟨txs, ?_, h1, ?_⟩
        · simpa [List.filter_cons, hT] using hmap
        · rw [h2]
          simp [List.filter_cons, hT]

theorem mapE_append_ok (f : α → Except Err β) (xs ys : List α) (as bs : List β)
    (h1 : mapE f xs = Except.ok as) (h2 : mapE f ys = Except.ok bs) :
    mapE f (xs ++ ys) = Except.ok (as ++ bs) := by
  induction xs generalizing as with
  | nil =>
    simp only [mapE, Except.ok.injEq] at h1
    subst h1
    simpa using h2
  | cons x xs ih =>
    simp only [mapE] at h1
    cases hf : f x with
    | error e => simp [hf] at h1
    | ok b =>
      simp only [hf] at h1
      cases hm : mapE f xs with
      | error e => simp [hm] at h1
      | ok bs2 =>
        simp only [hm, Except.ok.injEq] at h1
        subst h1
        simp only [List.cons_append, mapE, hf, List.append_eq, ih bs2 hm]

theorem ntrydtls_fold_char (record : Ntry) (cs : List Elem)
    (st res : List Ntry × Bool)
    (h : foldE (ntrydtls_step record) st cs = Except.ok res) :
    ∃ txs, mapE (txdtlsParser record) (dtlsList cs) = Except.ok txs ∧
      res.1 = st.1 ++ txs ∧
      res.2 = (st.2 || !(dtlsList cs).isEmpty) := by
  induction cs generalizing st with
  | nil =>
    simp only [foldE, Except.ok.injEq] at h
    subst h
    exact ⟨[], rfl, by simp, by simp [dtlsList]⟩
  | cons c cs ih =>
    simp only [foldE] at h
    cases hstep : ntrydtls_step record st c with
    | error e => simp [hstep] at h
    | ok st1 =>
      simp only [hstep] at h
      unfold ntrydtls_step at hstep
      by_cases hT : c.is "NtryDtls" = true
      · rw [if_pos hT] at hstep
        obtain ⟨txs1, hmap1, ha1, hb1⟩ := txdtls_push_fold_char record c.children st st1 hstep
        obtain ⟨txs2, hmap2, ha2, hb2⟩ := ih _ h
        refine ⟨txs1 ++ txs2, ?_, ?_, ?_⟩
        · have : dtlsList (c :: cs)
              = c.children.filter (fun x => x.is "TxDtls") ++ dtlsList cs := by
            simp [dtlsList, hT]
          rw [this]
          exact mapE_append_ok _ _ _ _ _ hmap1 hmap2
        · rw [ha2, ha1, List.append_assoc]
        · have : dtlsList (c :: cs)
              = c.children.filter (fun x => x.is "TxDtls") ++ dtlsList cs := by
            simp [dtlsList, hT]
          rw [hb2, hb1, this]
          cases hl1 : List.filter (fun c => c.is "TxDtls") c.children with
          | nil => simp
          | cons a as => simp
      · rw [if_neg hT] at hstep
        simp only [Except.ok.injEq] at hstep
        subst hstep
        obtain ⟨txs, hmap, ha2, hb2⟩ := ih _ h
        have : dtlsList (c :: cs) = dtlsList cs := by
          simp [dtlsList, hT]
        rw [this]
        exact ⟨txs, hmap, ha2, hb2⟩

theorem ntryParser_char (account : String) (e : Elem) (l : List Ntry)
    (h : ntryParser account e = Except.ok l) :
    ∃ r, ntry_template account e = Except.ok r ∧
      ((entry_dtls e = [] ∧ l = [r]) ∨
       (entry_dtls e ≠ [] ∧
         mapE (txdtlsParser r) (entry_dtls e) = Except.ok l)) := by
  unfold ntryParser at h
  cases ht : ntry_template account e with
  | error e2 => simp [ht] at h
  | ok record =>
    simp only [ht] at h
    cases hf : foldE (ntrydtls_step record) ([], false) e.children with
    | error e2 => simp [hf] at h
    | ok st =>
      simp only [hf] at h
      obtain ⟨txs, hmap, ha, hb⟩ :=
        ntrydtls_fold_char record e.children ([], false) st hf
      simp only [List.nil_append, Bool.false_or] at ha hb
      refine ⟨record, rfl, ?_⟩
      cases hemp : (dtlsList e.children).isEmpty with
      | true =>
        rw [hemp] at hb
        simp only [Bool.not_true] at hb
        rw [hb] at h
        simp only [Bool.false_eq_true, if_false, Except.ok.injEq] at h
        have hnil : entry_dtls e = [] := by
          unfold entry_dtls
          exact List.isEmpty_iff.mp hemp
        left
        refine ⟨hnil, ?_⟩
        have : txs = [] := by
          unfold entry_dtls at hnil
          rw [hnil] at hmap
          simp only [mapE, Except.ok.injEq] at hmap
          exact hmap.symm
        rw [← h, ha, this]
        simp
      | false =>
        rw [hemp] at hb
        simp only [Bool.not_false] at hb
        rw [hb] at h
        simp only [if_true, Except.ok.injEq] at h
        have hne : entry_dtls e ≠ [] := by
          unfold entry_dtls
          intro hc
          rw [hc] at hemp
          simp at hemp
        right
        refine ⟨hne, ?_⟩
        unfold entry_dtls
        rw [← h, ha]
        exact hmap

theorem ntryParser_account (account : String) (e : Elem) (l : List Ntry)
    (h : ntryParser account e = Except.ok l) :
    ∀ r ∈ l, r.account = account := by
  intro r hr
  obtain ⟨t, ht, hcase⟩ := ntryParser_char account e l h
  have htacc : t.account = account :=
    (ntry_template_char account e t ht).choose_spec.choose_spec.choose_spec.choose_spec.2.2.2.2.1
  rcases hcase with ⟨-, hl⟩ | ⟨-, hl⟩
  · rw [hl] at hr
    simp only [List.mem_singleton] at hr
    rw [hr, htacc]
  · obtain ⟨d, -, hd⟩ := mapE_mem _ _ _ hl r hr
    obtain ⟨op, amt, -, -, hacc, -⟩ := txdtlsParser_char t d r hd
    rw [hacc, htacc]

theorem Elem.is_ne (e : Elem) (t1 t2 : String) (h : e.is t1 = true)
    (hne : t2 ≠ t1) : e.is t2 = false := by
  unfold Elem.is at h ⊢
  rw [beq_iff_eq] at h
  rw [h]
  exact beq_eq_false_iff_ne.mpr (fun hh => hne hh.symm)

theorem stmt_step_seqnb_iban (c : Elem) (i i1 : Stmt)
    (h : stmt_step_seqnb c i = Except.ok i1) : i1.iban = i.iban := by
  unfold stmt_step_seqnb at h
  by_cases hE : c.is "ElctrncSeqNb" = true
  · rw [if_pos hE] at h
    cases hp : parseI64 c.text with
    | none => rw [hp] at h; exact absurd h (by simp)
    | some n =>
      rw [hp] at h
      simp only [Except.ok.injEq] at h
      rw [← h]
  · rw [if_neg hE] at h
    simp only [Except.ok.injEq] at h
    rw [← h]

theorem stmt_step_acct_char (c : Elem) (i i1 : Stmt)
    (h : stmt_step_acct c i = Except.ok i1) :
    (c.is "Acct" = true → ∃ ib, acct_iban c = some ib ∧ i1.iban = ib.text) ∧
    (c.is "Acct" = false → i1 = i) := by
  unfold stmt_step_acct at h
  by_cases hA : c.is "Acct" = true
  · rw [if_pos hA] at h
    cases hib : acct_iban c with
    | none => rw [hib] at h; exact absurd h (by simp)
    | some ib =>
      rw [hib] at h
      simp only [Except.ok.injEq] at h
      exact ⟨fun _ => ⟨ib, rfl, by rw [← h]⟩, fun hf => absurd hA (by simp [hf])⟩
  · rw [if_neg hA] at h
    simp only [Except.ok.injEq] at h
    exact ⟨fun ht => absurd ht hA, fun _ => h.symm⟩

theorem stmt_step_ntry_char (c : Elem) (i : Stmt) (v : List Ntry)
    (res : Stmt × List Ntry)
    (h : stmt_step_ntry c (i, v) = Except.ok res) :
    res.1 = i ∧ (∃ tl, res.2 = v ++ tl) ∧
    (c.is "Ntry" = false → res.2 = v) ∧
    (c.is "Ntry" = true →
      ∃ l, ntryParser i.iban c = Except.ok l ∧ res.2 = v ++ l) := by
  unfold stmt_step_ntry at h
  by_cases hN : c.is "Ntry" = true
  · rw [if_pos hN] at h
    cases hn : ntryParser i.iban c with
    | error e => rw [hn] at h; exact absurd h (by simp)
    | ok l =>
      rw [hn] at h
      simp only [Except.ok.injEq] at h
      refine ⟨by rw [← h], ⟨l, by rw [← h]⟩, fun hf => absurd hN (by simp [hf]),
        fun _ => ⟨l, rfl, by rw [← h]⟩⟩
  · rw [if_neg hN] at h
    simp only [Except.ok.injEq] at h
    exact ⟨by rw [← h], ⟨[], by rw [← h]; simp⟩, fun _ => by rw [← h],
      fun ht => absurd ht hN⟩

theorem stmt_step_char (st : Stmt × List Ntry) (c : Elem)
    (res : Stmt × List Ntry) (h : stmt_step st c = Except.ok res) :
    (∃ tl, res.2 = st.2 ++ tl) ∧
    (c.is "Acct" = true → ∃ ib, acct_iban c = some ib ∧ res.1.iban = ib.text) ∧
    (c.is "Acct" = false → res.1.iban = st.1.iban) := by
  unfold stmt_step at h
  cases h1 : stmt_step_seqnb c st.1 with
  | error e => simp [h1] at h
  | ok i1 =>
    simp only [h1] at h
    cases h2 : stmt_step_acct c i1 with
    | error e => simp [h2] at h
    | ok i2 =>
      simp only [h2] at h
      have hseq := stmt_step_seqnb_iban c st.1 i1 h1
      have hacct := stmt_step_acct_char c i1 i2 h2
      have hntry := stmt_step_ntry_char c i2 st.2 res h
      refine ⟨hntry.2.1, ?_, ?_⟩
      · intro hA
        obtain ⟨ib, hib, hiban⟩ := hacct.1 hA
        exact ⟨ib, hib, by rw [hntry.1, hiban]⟩
      · intro hA
        rw [hntry.1, hacct.2 hA, hseq]

theorem stmt_fold_vec (cs : List Elem) (st res : Stmt × List Ntry)
    (h : foldE stmt_step st cs = Except.ok res) :
    ∃ tl, res.2 = st.2 ++ tl := by
  induction cs generalizing st with
  | nil =>
    simp only [foldE, Except.ok.injEq] at h
    subst h
    exact ⟨[], by simp⟩
  | cons c cs ih =>
    simp only [foldE] at h
    cases hstep : stmt_step st c with
    | error e => simp [hstep] at h
    | ok st1 =>
      simp only [hstep] at h
      obtain ⟨tl1, h1⟩ := (stmt_step_char st c st1 hstep).1
      obtain ⟨tl2, h2⟩ := ih _ h
      exact ⟨tl1 ++ tl2, by rw [h2, h1, List.append_assoc]⟩

theorem stmt_fold_iban (cs : List Elem) (st res : Stmt × List Ntry)
    (h : foldE stmt_step st cs = Except.ok res) :
    (lastTagged "Acct" cs = none → res.1.iban = st.1.iban) ∧
    (∀ a, lastTagged "Acct" cs = some a →
      ∃ ib, acct_iban a = some ib ∧ res.1.iban = ib.text) := by
  induction cs generalizing st with
  | nil =>
    simp only [foldE, Except.ok.injEq] at h
    subst h
    exact ⟨fun _ => rfl, fun a ha => by simp [lastTagged, List.foldl] at ha⟩
  | cons c cs ih =>
    simp only [foldE] at h
    cases hstep : stmt_step st c with
    | error e => simp [hstep] at h
    | ok st1 =>
      simp only [hstep] at h
      have IH := ih _ h
      have HS := stmt_step_char st c st1 hstep
      constructor
      · intro hL
        rw [lastTagged_cons] at hL
        cases hL2 : lastTagged "Acct" cs with
        | some a => rw [hL2] at hL; simp at hL
        | none =>
          rw [hL2] at hL
          by_cases hA : c.is "Acct" = true
          · rw [if_pos hA] at hL; simp at hL
          · rw [IH.1 hL2, HS.2.2 (by simpa using hA)]
      · intro a hL
        rw [lastTagged_cons] at hL
        cases hL2 : lastTagged "Acct" cs with
        | some a2 =>
          rw [hL2] at hL
          simp only [Option.some.injEq] at hL
          subst hL
          exact IH.2 a2 hL2
        | none =>
          rw [hL2] at hL
          by_cases hA : c.is "Acct" = true
          · rw [if_pos hA] at hL
            simp only [Option.some.injEq] at hL
            subst hL
            obtain ⟨ib, hib, hiban⟩ := HS.2.1 hA
            exact ⟨ib, hib, by rw [IH.1 hL2, hiban]⟩
          · rw [if_neg hA] at hL
            simp at hL

theorem stmt_step_on_ntry (st : Stmt × List Ntry) (e : Elem)
    (hN : e.is "Ntry" = true) :
    stmt_step st e =
      match ntryParser st.1.iban e with
      | Except.error err => Except.error err
      | Except.ok res => Except.ok (st.1, st.2 ++ res) := by
  have hE : e.is "ElctrncSeqNb" = false :=
    Elem.is_ne e "Ntry" "ElctrncSeqNb" hN (by decide)
  have hA : e.is "Acct" = false := Elem.is_ne e "Ntry" "Acct" hN (by decide)
  unfold stmt_step stmt_step_seqnb stmt_step_acct stmt_step_ntry
  rw [hE, hA, hN]
  simp

/-- Claim C1, counterexample: on a document whose Acct IBAN element has
empty text and whose entry amount text is the string 0, the produced record
has an empty account and both amount fields equal to the string 0. -/
theorem claim_C1_counterexample :
    process_camt53 c1ce_doc =
      Except.ok [{ account := "", date := "2024-01-02", description := "desc",
                   debit := "0", credit := "0", ntry_type := "CRDT" }] := rfl

/-- Claim C1 (amended): for every FlatEntry produced by the Entry Extractor,
provided the IBAN in force is non-empty and none of the resolvable amount
texts of the entry is the string 0, the account field is non-empty and
exactly one of debit and credit is the string 0, the other being one of the
amount texts of the entry, copied verbatim. -/
theorem claim_C1 (acct : String) (e : Elem) (l : List Ntry)
    (hacct : acct ≠ "")
    (h : ntryParser acct e = Except.ok l)
    (hamt : ∀ s ∈ ntry_amounts e, s ≠ "0") :
    ∀ r ∈ l, r.account ≠ "" ∧
      ((r.debit = "0" ∧ r.credit ≠ "0" ∧ r.credit ∈ ntry_amounts e) ∨
       (r.credit = "0" ∧ r.debit ≠ "0" ∧ r.debit ∈ ntry_amounts e)) := by
  intro r hr
  obtain ⟨t, ht, hcase⟩ := ntryParser_char acct e l h
  obtain ⟨amt, dt, descr, ind, hA, hB, hC, hD, htacc, htdate, htdescr, httype,
    hcr, hncr⟩ := ntry_template_char acct e t ht
  have hamt_mem : amt.text ∈ ntry_amounts e := by
    unfold ntry_amounts
    rw [hA]
    exact List.mem_append_left _ (List.mem_singleton.mpr rfl)
  rcases hcase with ⟨hnil, hl⟩ | ⟨hne, hl⟩
  · rw [hl] at hr
    simp only [List.mem_singleton] at hr
    subst hr
    refine ⟨by rw [htacc]; exact hacct, ?_⟩
    by_cases hind : ind.text = "CRDT"
    · obtain ⟨hcred, hdeb⟩ := hcr hind
      left
      exact ⟨hdeb, by rw [hcred]; exact hamt amt.text hamt_mem,
        by rw [hcred]; exact hamt_mem⟩
    · obtain ⟨hdeb, hcred⟩ := hncr hind
      right
      exact ⟨hcred, by rw [hdeb]; exact hamt amt.text hamt_mem,
        by rw [hdeb]; exact hamt_mem⟩
  · obtain ⟨d, hd_mem, hd⟩ := mapE_mem _ _ _ hl r hr
    obtain ⟨op, amtd, hop, hamtd, hracc, hrdate, hrtype, hrdescr, hplace⟩ :=
      txdtlsParser_char t d r hd
    have hamtd_mem : amtd ∈ ntry_amounts e := by
      unfold ntry_amounts
      refine List.mem_append_right _ ?_
      exact List.mem_filterMap.mpr ⟨d, hd_mem, hamtd⟩
    refine ⟨by rw [hracc, htacc]; exact hacct, ?_⟩
    by_cases hop2 : op = "DBIT"
    · rw [if_pos hop2] at hplace
      right
      exact ⟨hplace.2, by rw [hplace.1]; exact hamt amtd hamtd_mem,
        by rw [hplace.1]; exact hamtd_mem⟩
    · rw [if_neg hop2] at hplace
      left
      exact ⟨hplace.2, by rw [hplace.1]; exact hamt amtd hamtd_mem,
        by rw [hplace.1]; exact hamtd_mem⟩

/-- Claim C1, witness: the amended claim applied to a concrete entry with a
non-zero amount and one TxDtls. -/
theorem claim_C1_witness :
    c1w_r.account ≠ "" ∧
      ((c1w_r.debit = "0" ∧ c1w_r.credit ≠ "0" ∧
          c1w_r.credit ∈ ntry_amounts c1w_e) ∨
       (c1w_r.credit = "0" ∧ c1w_r.debit ≠ "0" ∧
          c1w_r.debit ∈ ntry_amounts c1w_e)) :=
  claim_C1 "ACC" c1w_e c1w_l (by decide) rfl (by decide) c1w_r
    (List.mem_singleton.mpr rfl)

/-- Claim C2: on success the Entry Extractor returns exactly as many records
as there are TxDtls beneath the entry when there is at least one, those
records being exactly the Detail Enricher outputs on the details; and
exactly the base template as sole record when there is none.  It never
emits both. -/
theorem claim_C2 (acct : String) (e : Elem) (l : List Ntry)
    (h : ntryParser acct e = Except.ok l) :
    (entry_dtls e ≠ [] → ∃ r, ntry_template acct e = Except.ok r ∧
      mapE (txdtlsParser r) (entry_dtls e) = Except.ok l ∧
      l.length = (entry_dtls e).length) ∧
    (entry_dtls e = [] → ∃ r, ntry_template acct e = Except.ok r ∧ l = [r]) := by
  obtain ⟨r, ht, hcase⟩ := ntryParser_char acct e l h
  rcases hcase with ⟨hnil, hl⟩ | ⟨hne, hl⟩
  · exact ⟨fun hc => absurd hnil hc, fun _ => ⟨r, ht, hl⟩⟩
  · exact ⟨fun _ => ⟨r, ht, hl, mapE_length _ _ _ hl⟩, fun hc => absurd hc hne⟩

/-- Claim C2, witness: the claim applied to a concrete entry carrying two
TxDtls under two NtryDtls wrappers. -/
theorem claim_C2_witness :
    ntryParser "ACC" c2w_e = Except.ok c2w_l ∧
    ((entry_dtls c2w_e ≠ [] → ∃ r, ntry_template "ACC" c2w_e = Except.ok r ∧
       mapE (txdtlsParser r) (entry_dtls c2w_e) = Except.ok c2w_l ∧
       c2w_l.length = (entry_dtls c2w_e).length) ∧
     (entry_dtls c2w_e = [] →
       ∃ r, ntry_template "ACC" c2w_e = Except.ok r ∧ c2w_l = [r])) :=
  ⟨rfl, claim_C2 "ACC" c2w_e c2w_l rfl⟩

/-- Claim C3, counterexample: an entry with exactly one TxDtls whose
indicator and amount repeat the entry-level ones produces a record equal to
the undecorated base template. -/
theorem claim_C3_counterexample :
    (entry_dtls c3ce_ntry).length = 1 ∧
    ntryParser "AC" c3ce_ntry = Except.ok [c3ce_record] ∧
    ntry_template "AC" c3ce_ntry = Except.ok c3ce_record :=
  ⟨rfl, rfl, rfl⟩

/-- Claim C3 (amended): for every entry with at least one TxDtls, exactly N
records are produced and each is the Detail Enricher output on the
corresponding TxDtls, in document order; the base template is never
separately appended, although an enriched record may coincide with it when
the detail repeats the entry direction and amount and changes nothing. -/
theorem claim_C3 (acct : String) (e : Elem) (l : List Ntry)
    (h : ntryParser acct e = Except.ok l) (hne : entry_dtls e ≠ []) :
    l.length = (entry_dtls e).length ∧
    ∃ r, ntry_template acct e = Except.ok r ∧
      ∀ i (hi : i < (entry_dtls e).length) (hli : i < l.length),
        txdtlsParser r ((entry_dtls e).get ⟨i, hi⟩)
          = Except.ok (l.get ⟨i, hli⟩) := by
  obtain ⟨r, ht, hcase⟩ := ntryParser_char acct e l h
  rcases hcase with ⟨hnil, hl⟩ | ⟨hne2, hl⟩
  · exact absurd hnil hne
  · exact ⟨mapE_length _ _ _ hl, r, ht,
      fun i hi hli => mapE_get _ _ _ hl i hi hli⟩

/-- Claim C3, witness: the amended claim applied to a concrete entry with
two TxDtls. -/
theorem claim_C3_witness :
    c2w_l.length = (entry_dtls c2w_e).length ∧
    ∃ r, ntry_template "ACC" c2w_e = Except.ok r ∧
      ∀ i (hi : i < (entry_dtls c2w_e).length) (hli : i < c2w_l.length),
        txdtlsParser r ((entry_dtls c2w_e).get ⟨i, hi⟩)
          = Except.ok (c2w_l.get ⟨i, hli⟩) :=
  claim_C3 "ACC" c2w_e c2w_l rfl (List.ne_nil_of_length_pos (by decide))

/-- Claim C4: on success the Detail Enricher keeps the template ntry_type
unchanged and places the scan-resolved detail amount on the debit side with
credit zero exactly when the scan-resolved detail indicator is DBIT, and on
the credit side with debit zero otherwise. -/
theorem claim_C4 (t : Ntry) (d : Elem) (r : Ntry)
    (h : txdtlsParser t d = Except.ok r) :
    r.ntry_type = t.ntry_type ∧
    ∃ op amt, lastText "CdtDbtInd" d.children = some op ∧
      lastText "Amt" d.children = some amt ∧
      (op = "DBIT" → r.debit = amt ∧ r.credit = "0") ∧
      (op ≠ "DBIT" → r.credit = amt ∧ r.debit = "0") := by
  obtain ⟨op, amt, hop, hamt, hacc, hdate, htype, hdescr, hplace⟩ :=
    txdtlsParser_char t d r h
  refine ⟨htype, op, amt, hop, hamt, ?_, ?_⟩
  · intro hyes
    rw [if_pos hyes] at hplace
    exact hplace
  · intro hno
    rw [if_neg hno] at hplace
    exact hplace

/-- Claim C4, witness: the claim applied to a concrete DBIT detail under a
CRDT template. -/
theorem claim_C4_witness :
    c4w_r.ntry_type = tpl0.ntry_type ∧
    ∃ op amt, lastText "CdtDbtInd" c4w_d.children = some op ∧
      lastText "Amt" c4w_d.children = some amt ∧
      (op = "DBIT" → c4w_r.debit = amt ∧ c4w_r.credit = "0") ∧
      (op ≠ "DBIT" → c4w_r.credit = amt ∧ c4w_r.debit = "0") :=
  claim_C4 tpl0 c4w_d c4w_r rfl

/-- Claim C5: the base template places the entry amount on the credit side
with debit zero exactly when the entry indicator text is CRDT, and on the
debit side with credit zero for any other indicator text, malformed tokens
included. -/
theorem claim_C5 (acct : String) (e : Elem) (r : Ntry)
    (h : ntry_template acct e = Except.ok r) :
    ∃ amt ind, get_child e "Amt" = some amt ∧
      get_child e "CdtDbtInd" = some ind ∧ r.ntry_type = ind.text ∧
      (ind.text = "CRDT" → r.credit = amt.text ∧ r.debit = "0") ∧
      (ind.text ≠ "CRDT" → r.debit = amt.text ∧ r.credit = "0") := by
  obtain ⟨amt, dt, descr, ind, hA, hB, hC, hD, hacc, hdate, hdescr, htype,
    hcr, hncr⟩ := ntry_template_char acct e r h
  exact ⟨amt, ind, hA, hD, htype, hcr, hncr⟩

/-- Claim C5, witness: the claim applied to an entry whose indicator is the
malformed token CRED, which lands on the debit side. -/
theorem claim_C5_witness :
    ∃ amt ind, get_child c5w_e "Amt" = some amt ∧
      get_child c5w_e "CdtDbtInd" = some ind ∧ c5w_r.ntry_type = ind.text ∧
      (ind.text = "CRDT" → c5w_r.credit = amt.text ∧ c5w_r.debit = "0") ∧
      (ind.text ≠ "CRDT" → c5w_r.debit = amt.text ∧ c5w_r.credit = "0") :=
  claim_C5 "AC2" c5w_e c5w_r rfl

/-- Claim C6: IBAN resolution is positional.  If the scan of the statement
children reaches an Ntry child with state (info, vec) and the whole run
succeeds, the records of that entry are produced with account equal to the
IBAN in force at that point, which is the placeholder IBAN when no Acct
child precedes the entry and the Id IBAN text of the most recent preceding
Acct child otherwise; the entry records sit between the earlier and later
records in the output. -/
theorem claim_C6 (root bk stmt : Elem) (pre : List Elem) (e : Elem)
    (rest : List Elem) (out : List Ntry) (info : Stmt) (vec : List Ntry)
    (hbk : get_child root "BkToCstmrStmt" = some bk)
    (hstmt : get_child bk "Stmt" = some stmt)
    (hsplit : stmt.children = pre ++ e :: rest)
    (hN : e.is "Ntry" = true)
    (hpre : foldE stmt_step ({ iban := "IBAN", entries_count := 0 }, []) pre
      = Except.ok (info, vec))
    (hrun : process_camt53 root = Except.ok out) :
    ∃ l, ntryParser info.iban e = Except.ok l ∧
      (∃ tail, out = vec ++ l ++ tail) ∧
      (∀ r ∈ l, r.account = info.iban) ∧
      (lastTagged "Acct" pre = none → info.iban = "IBAN") ∧
      (∀ a, lastTagged "Acct" pre = some a →
        ∃ ib, acct_iban a = some ib ∧ info.iban = ib.text) := by
  unfold process_camt53 at hrun
  simp only [hbk, hstmt] at hrun
  rw [hsplit, foldE_append, hpre] at hrun
  simp only [foldE] at hrun
  rw [stmt_step_on_ntry (info, vec) e hN] at hrun
  cases hnp : ntryParser info.iban e with
  | error err => simp [hnp] at hrun
  | ok l =>
    simp only [hnp] at hrun
    cases hrest : foldE stmt_step (info, vec ++ l) rest with
    | error err => simp [hrest] at hrun
    | ok st =>
      simp only [hrest, Except.ok.injEq] at hrun
      obtain ⟨tl, htl⟩ := stmt_fold_vec rest (info, vec ++ l) st hrest
      have hiban := stmt_fold_iban pre
        ({ iban := "IBAN", entries_count := 0 }, []) (info, vec) hpre
      refine ⟨l, rfl, ⟨tl, ?_⟩, ntryParser_account info.iban e l hnp,
        hiban.1, hiban.2⟩
      rw [← hrun, htl, List.append_assoc]

/-- Claim C6, witness: the claim applied to a concrete document whose single
entry follows one Acct child. -/
theorem claim_C6_witness :
    ∃ l, ntryParser c6w_info.iban c6w_ntry = Except.ok l ∧
      (∃ tail, c6w_out = [] ++ l ++ tail) ∧
      (∀ r ∈ l, r.account = c6w_info.iban) ∧
      (lastTagged "Acct" [c6w_acct] = none → c6w_info.iban = "IBAN") ∧
      (∀ a, lastTagged "Acct" [c6w_acct] = some a →
        ∃ ib, acct_iban a = some ib ∧ c6w_info.iban = ib.text) :=
  claim_C6 c6w_root c6w_bk c6w_stmt [c6w_acct] c6w_ntry [] c6w_out c6w_info []
    rfl rfl rfl rfl rfl rfl

/-- Claim C7: when the last RltdPties child of a TxDtls carries both a Cdtr
and a Dbtr child, the enriched record description is built from the debtor
name and the DbtrAcct Id IBAN lookup, in the form name, separator, IBAN;
the debtor identity overwrites the creditor identity. -/
theorem claim_C7 (t : Ntry) (d : Elem) (r : Ntry) (c cd db : Elem)
    (h : txdtlsParser t d = Except.ok r)
    (hlast : lastTagged "RltdPties" d.children = some c)
    (hcd : get_child c "Cdtr" = some cd)
    (hdb : get_child c "Dbtr" = some db) :
    ∃ nm, get_child db "Nm" = some nm ∧
      r.description = nm.text ++ " - " ++ dbtr_iban c := by
  obtain ⟨op, amt, hop, hamt, hacc, hdate, htype, hdescr, hplace⟩ :=
    txdtlsParser_char t d r h
  rw [hlast] at hdescr
  unfold rltdpties_descr at hdescr
  simp only [hcd] at hdescr
  cases hnm : get_child cd "Nm" with
  | none => simp [hnm] at hdescr
  | some nmc =>
    simp only [hnm] at hdescr
    cases hci : cdtr_iban c with
    | error e2 => simp [hci] at hdescr
    | ok ib1 =>
      simp only [hci] at hdescr
      simp only [hdb] at hdescr
      cases hnmd : get_child db "Nm" with
      | none => simp [hnmd] at hdescr
      | some nmd =>
        simp only [hnmd, Except.ok.injEq] at hdescr
        exact ⟨nmd, rfl, hdescr.symm⟩

/-- Claim C7, witness: the claim applied to a concrete RltdPties carrying
both a creditor and a debtor; the debtor identity wins. -/
theorem claim_C7_witness :
    ∃ nm, get_child (node "Dbtr" [leaf "Nm" "Jane Doe"]) "Nm" = some nm ∧
      c7w_r.description = nm.text ++ " - " ++ dbtr_iban c7w_rp :=
  claim_C7 tpl0 c7w_d c7w_r c7w_rp (node "Cdtr" [leaf "Nm" "Acme"])
    (node "Dbtr" [leaf "Nm" "Jane Doe"]) rfl rfl rfl rfl

/-- Claim C8 (modelled from the spec, the RmtInf variant is not under src):
the scan step of the RmtInf handling variant appends the Ustrd text of a
RmtInf child to the existing description with no separator, and errors with
a StructureError when the RmtInf child has no Ustrd. -/
theorem claim_C8 (o m : Option String) (n : Ntry) (c : Elem)
    (hc : c.is "RmtInf" = true) :
    (∀ u, get_child c "Ustrd" = some u →
      txdtls_step_v2 (o, m, n) c =
        Except.ok (o, m, { n with description := n.description ++ u.text })) ∧
    (get_child c "Ustrd" = none →
      txdtls_step_v2 (o, m, n) c =
        Except.error (Err.structureError "RmtInf without Ustrd")) := by
  have hA : c.is "Amt" = false := Elem.is_ne c "RmtInf" "Amt" hc (by decide)
  have hC : c.is "CdtDbtInd" = false :=
    Elem.is_ne c "RmtInf" "CdtDbtInd" hc (by decide)
  have hR : c.is "RltdPties" = false :=
    Elem.is_ne c "RmtInf" "RltdPties" hc (by decide)
  constructor
  · intro u hu
    unfold txdtls_step_v2 rmtinf_append
    rw [hA, hC, hR, hc, hu]
    simp
  · intro hu
    unfold txdtls_step_v2 rmtinf_append
    rw [hA, hC, hR, hc, hu]
    simp

/-- Claim C8, witness: the modelled step applied to a concrete RmtInf child
carrying an Ustrd. -/
theorem claim_C8_witness :
    (∀ u, get_child c8w_rmt "Ustrd" = some u →
      txdtls_step_v2 (some "DBIT", some "1.00", tpl0) c8w_rmt =
        Except.ok (some "DBIT", some "1.00",
          { tpl0 with description := tpl0.description ++ u.text })) ∧
    (get_child c8w_rmt "Ustrd" = none →
      txdtls_step_v2 (some "DBIT", some "1.00", tpl0) c8w_rmt =
        Except.error (Err.structureError "RmtInf without Ustrd")) :=
  claim_C8 (some "DBIT") (some "1.00") tpl0 c8w_rmt rfl

/-- Claim C9, counterexample: when a creditor is present and its CdtrAcct is
absent, the sentinel used in the description is the misspelled string
UKNOWN IBAN, which is neither of the two sentinels the claim allows. -/
theorem claim_C9_counterexample :
    rltdpties_descr c9ce_rp = Except.ok "Alice - UKNOWN IBAN" ∧
    "UKNOWN IBAN" ≠ "no IBAN" ∧ "UKNOWN IBAN" ≠ "UNKNOWN IBAN" :=
  ⟨rfl, by decide, by decide⟩

/-- Claim C9 (amended): when a related party account is absent (creditor
present without CdtrAcct, or debtor present without DbtrAcct), the IBAN in
the description is the one sentinel string UKNOWN IBAN, identical in the
creditor and the debtor case. -/
theorem claim_C9 (c c2 cd db nmc nmd : Elem)
    (hcd : get_child c "Cdtr" = some cd)
    (hnmc : get_child cd "Nm" = some nmc)
    (hnoacct : get_child c "CdtrAcct" = none)
    (hnodb : get_child c "Dbtr" = none)
    (hnocd : get_child c2 "Cdtr" = none)
    (hdb : get_child c2 "Dbtr" = some db)
    (hnmd : get_child db "Nm" = some nmd)
    (hnoacct2 : get_child c2 "DbtrAcct" = none) :
    rltdpties_descr c = Except.ok (nmc.text ++ " - " ++ "UKNOWN IBAN") ∧
    rltdpties_descr c2 = Except.ok (nmd.text ++ " - " ++ "UKNOWN IBAN") := by
  constructor
  · unfold rltdpties_descr cdtr_iban
    simp only [hcd, hnmc, hnoacct, hnodb]
  · unfold rltdpties_descr dbtr_iban
    simp only [hnocd, hdb, hnmd, hnoacct2]

/-- Claim C9, witness: the amended claim applied to a creditor-only and a
debtor-only RltdPties, both without the account wrapper. -/
theorem claim_C9_witness :
    rltdpties_descr c9ce_rp =
      Except.ok ((leaf "Nm" "Alice").text ++ " - " ++ "UKNOWN IBAN") ∧
    rltdpties_descr c9w_rp2 =
      Except.ok ((leaf "Nm" "Bob").text ++ " - " ++ "UKNOWN IBAN") :=
  claim_C9 c9ce_rp c9w_rp2 (node "Cdtr" [leaf "Nm" "Alice"])
    (node "Dbtr" [leaf "Nm" "Bob"]) (leaf "Nm" "Alice") (leaf "Nm" "Bob")
    rfl rfl rfl rfl rfl rfl rfl rfl

/-- Claim C10: the creditor and debtor IBAN lookups are asymmetric on a
missing Id IBAN beneath a present account wrapper: the debtor case succeeds
with the literal Not Found as the IBAN part of the description, while the
creditor case aborts with a StructureError. -/
theorem claim_C10 (c c2 db cd dacct cacct nmd nmc : Elem)
    (h1 : get_child c "Cdtr" = none)
    (h2 : get_child c "Dbtr" = some db)
    (h3 : get_child db "Nm" = some nmd)
    (h4 : get_child c "DbtrAcct" = some dacct)
    (h5 : acct_iban dacct = none)
    (h6 : get_child c2 "Cdtr" = some cd)
    (h7 : get_child cd "Nm" = some nmc)
    (h8 : get_child c2 "CdtrAcct" = some cacct)
    (h9 : acct_iban cacct = none) :
    rltdpties_descr c = Except.ok (nmd.text ++ " - " ++ "Not Found") ∧
    rltdpties_descr c2 =
      Except.error (Err.structureError "no cdtr IBAN in RltdPties") := by
  constructor
  · unfold rltdpties_descr dbtr_iban
    simp only [h1, h2, h3, h4, h5]
  · unfold rltdpties_descr cdtr_iban
    simp only [h6, h7, h8, h9]

/-- Claim C10, witness: the claim applied to concrete debtor and creditor
elements whose account wrappers lack the Id IBAN pair. -/
theorem claim_C10_witness :
    rltdpties_descr c10w_rp1 =
      Except.ok ((leaf "Nm" "Jane").text ++ " - " ++ "Not Found") ∧
    rltdpties_descr c10w_rp2 =
      Except.error (Err.structureError "no cdtr IBAN in RltdPties") :=
  claim_C10 c10w_rp1 c10w_rp2 (node "Dbtr" [leaf "Nm" "Jane"])
    (node "Cdtr" [leaf "Nm" "John"]) (node "DbtrAcct" [node "Id" []])
    (node "CdtrAcct" [node "Id" []]) (leaf "Nm" "Jane") (leaf "Nm" "John")
    rfl rfl rfl rfl rfl rfl rfl rfl rfl
